import Mathlib

/-!
Verification of the Origin-Product-Exam-convert core against its design spec.

The development shallowly embeds the two pipelines of the repository:

* the classification pipeline — the Python `DocumentAnalyzer` class hosted in
  `src/src/workers/pyodideWorker.ts` (pattern table, `analyze_document_type`,
  `generate_new_filename`, and the worker's per-batch analyze loop) together
  with the main-thread façade `DocumentAnalyzerService.analyzeDocuments` in
  `src/src/services/documentAnalyzer.ts`;

* the formatting pipeline — `RustFormatterService.formatDocuments` and
  `RustFormatterService.getOutputMimeType`.

Modelling conventions:

* Python regular expressions are embedded as a small AST `RE` covering exactly
  the constructs the pattern table uses (literals, top-level alternation,
  concatenation, `.*`, `\d{n}`, `\s*`); `research` embeds `re.search`
  (match anywhere in the string).  `\d` is modelled by `Char.isDigit` and `\s`
  by `Char.isWhitespace`; `.` matches any character except a newline, as in
  Python without `re.DOTALL`.  Lower-casing (`str.lower()`) is the
  character-wise `lowerChars`.
* JavaScript numbers used for progress values are modelled as exact rationals
  (`ℚ`); the code computes `(i / total) * 100` by floating-point division and
  the claims at issue (flooring / integrality) are decided identically by the
  exact value.
* Asynchronous code is modelled by explicit outcome/event types: the
  synchronous start of an `analyzeDocuments` call is a state transition on a
  channel state, and the settlement of its promise is a function of the first
  settling event (worker message, worker error, or the 30 s timer).
* Fallible conversion (`format_document` in the WASM engine, which may throw)
  is an explicit function `List Nat → String → String → Except String (List Nat)`.
-/

/-! ## Pattern classifier (pyodideWorker.ts, embedded Python)

Regular-expression AST covering the constructs of `document_patterns`. -/

inductive RE where
  | lit : String → RE
  | seq : RE → RE → RE
  | alt : RE → RE → RE
  | anyStar : RE    -- `.*` : any run of characters not containing a newline
  | digits : Nat → RE  -- `\d{n}`
  | spaceStar : RE  -- `\s*`
deriving Repr

/-- Suffixes reachable from `cs` by consuming zero or more non-newline
characters (the semantics of `.*`). -/
def starSuffixes : List Char → List (List Char)
  | [] => [[]]
  | c :: cs => (c :: cs) :: (if c = '\n' then [] else starSuffixes cs)

/-- Suffixes reachable from `cs` by consuming zero or more whitespace
characters (the semantics of `\s*`). -/
def spaceSuffixes : List Char → List (List Char)
  | [] => [[]]
  | c :: cs => (c :: cs) :: (if c.isWhitespace then spaceSuffixes cs else [])

/-- All suffixes remaining after matching `r` against a prefix of `cs`. -/
def matchPre : RE → List Char → List (List Char)
  | .lit s, cs => if s.toList.isPrefixOf cs then [cs.drop s.toList.length] else []
  | .seq a b, cs => (matchPre a cs).flatMap (matchPre b)
  | .alt a b, cs => matchPre a cs ++ matchPre b cs
  | .anyStar, cs => starSuffixes cs
  | .digits n, cs =>
      if n ≤ cs.length ∧ (cs.take n).all Char.isDigit then [cs.drop n] else []
  | .spaceStar, cs => spaceSuffixes cs

/-- Embeds `re.search`: does `r` match starting at some position of `cs`? -/
def research (r : RE) : List Char → Bool
  | [] => !(matchPre r []).isEmpty
  | c :: cs => !(matchPre r (c :: cs)).isEmpty || research r cs

/-- Substring test: Python's `word in filename_lower`. -/
def isSub (n : List Char) : List Char → Bool
  | [] => n.isPrefixOf []
  | c :: cs => n.isPrefixOf (c :: cs) || isSub n cs

/-- Python's `str.lower()`, applied character-wise. -/
def lowerChars (s : String) : List Char := s.toList.map Char.toLower

/-- Shorthand for the `a.*b` patterns appearing throughout the pattern table. -/
def reBridge (a b : String) : RE := .seq (.lit a) (.seq .anyStar (.lit b))

/-- The `self.document_patterns` table of class `DocumentAnalyzer`, in declaration
order (Python dicts preserve insertion order). -/
def document_patterns : List (String × List RE) :=
  [ ("aadhaar",
      [ .alt (.lit "aadhaar") (.lit "आधार"),
        .seq (.digits 4) (.seq .spaceStar (.seq (.digits 4) (.seq .spaceStar (.digits 4)))),
        .lit "government of india",
        .lit "unique identification authority" ]),
    ("photo",
      [ .alt (.lit "photograph") (.lit "photo"),
        reBridge "passport" "size",
        reBridge "recent" "photo" ]),
    ("signature",
      [ .alt (.lit "signature") (.lit "sign"),
        reBridge "specimen" "signature",
        reBridge "thumb" "impression" ]),
    ("marksheet",
      [ .alt (reBridge "mark" "sheet") (.lit "marksheet"),
        .alt (reBridge "grade" "sheet") (.lit "gradesheet"),
        .lit "transcript",
        reBridge "examination" "result",
        reBridge "board" "examination" ]),
    ("certificate",
      [ .lit "certificate",
        .lit "diploma",
        .lit "degree",
        .lit "graduation",
        reBridge "post" "graduation" ]),
    ("caste_certificate",
      [ reBridge "caste" "certificate",
        reBridge "community" "certificate",
        .alt (.alt (reBridge "sc" "certificate") (reBridge "st" "certificate"))
             (reBridge "obc" "certificate"),
        reBridge "backward" "class" ]),
    ("income_certificate",
      [ reBridge "income" "certificate",
        reBridge "annual" "income",
        reBridge "salary" "certificate" ]) ]

/-- The nested `for doc_type, patterns ... for pattern ...` loop of
`analyze_document_type`: first rule one of whose patterns matches wins. -/
def analyzeScan (fl : List Char) : List (String × List RE) → Option String
  | [] => none
  | (t, ps) :: rest =>
      if ps.any (fun p => research p fl) then some t else analyzeScan fl rest

/-- Embeds `DocumentAnalyzer.analyze_document_type` (filename-based branch; the
unused `file_data` argument is omitted). -/
def analyze_document_type (filename : String) : String :=
  let fl := lowerChars filename
  match analyzeScan fl document_patterns with
  | some t => t
  | none =>
      if ["photo", "pic", "image", "passport"].any (fun w => isSub w.toList fl) then "photo"
      else if ["sign", "signature"].any (fun w => isSub w.toList fl) then "signature"
      else if ["mark", "grade", "result"].any (fun w => isSub w.toList fl) then "marksheet"
      else if ["cert", "certificate"].any (fun w => isSub w.toList fl) then "certificate"
      else if ["aadhaar", "aadhar", "uid"].any (fun w => isSub w.toList fl) then "aadhaar"
      else "document"

/-! Spec-side restatement of the classifier (§4.1): scan the ClassificationRule
table in declaration order for the first rule with a matching pattern, then an
ordered keyword-fallback association list, then the default `document`. -/

/-- Spec-side table scan: first rule (in table order) one of whose patterns
matches. -/
def specScan (fl : List Char) : Option String :=
  (document_patterns.find? (fun rule => rule.2.any (fun p => research p fl))).map Prod.fst

/-- Spec-side fallback heuristic as an ordered association list
(keyword list, resulting type). -/
def fallbackTable : List (List String × String) :=
  [ (["photo", "pic", "image", "passport"], "photo"),
    (["sign", "signature"], "signature"),
    (["mark", "grade", "result"], "marksheet"),
    (["cert", "certificate"], "certificate"),
    (["aadhaar", "aadhar", "uid"], "aadhaar") ]

/-- First entry of the ordered fallback list one of whose keywords occurs in
`fl` (evaluated in the fixed list order, first hit wins). -/
def firstKeywordHit (fl : List Char) : List (List String × String) → Option String
  | [] => none
  | (ws, t) :: rest =>
      if ws.any (fun w => isSub w.toList fl) then some t else firstKeywordHit fl rest

/-- Spec-side `classify` as the spec words it: table scan, then keyword fallback in
fixed order, then `document`. -/
def classifySpec (filename : String) : String :=
  let fl := lowerChars filename
  match specScan fl with
  | some t => t
  | none => (firstKeywordHit fl fallbackTable).getD "document"

/-! ## Filename generation (pyodideWorker.ts, embedded Python) -/

/-- The `type_mapping` dict of `generate_new_filename` (association list in
declaration order; keys are distinct so `dict.get` is `find?`). -/
def type_mapping (exam_code : String) : List (String × String) :=
  [ ("photo", exam_code ++ "_photograph"),
    ("signature", exam_code ++ "_signature"),
    ("aadhaar", exam_code ++ "_aadhaar_card"),
    ("marksheet", exam_code ++ "_marksheet"),
    ("certificate", exam_code ++ "_certificate"),
    ("caste_certificate", exam_code ++ "_caste_certificate"),
    ("income_certificate", exam_code ++ "_income_certificate"),
    ("document", exam_code ++ "_document") ]

/-- Embeds `DocumentAnalyzer.generate_new_filename`. -/
def generate_new_filename (detected_type exam_code : String) (index : Nat) : String :=
  let base_name :=
    match (type_mapping exam_code).find? (fun p => p.1 == detected_type) with
    | some p => p.2
    | none => exam_code ++ "_document"
  if index > 0 then base_name ++ "_" ++ toString (index + 1) else base_name

/-- Spec-side restatement of `renderName` (§4.1): fixed stem
`"{examCode}_{typeNoun}"`, unknown types fall back to `"{examCode}_document"`,
and `"_{index+1}"` is appended exactly when `index > 0`. -/
def renderNameSpec (documentType examCode : String) (index : Nat) : String :=
  let noun :=
    if documentType = "photo" then "photograph"
    else if documentType = "signature" then "signature"
    else if documentType = "aadhaar" then "aadhaar_card"
    else if documentType = "marksheet" then "marksheet"
    else if documentType = "certificate" then "certificate"
    else if documentType = "caste_certificate" then "caste_certificate"
    else if documentType = "income_certificate" then "income_certificate"
    else "document"
  examCode ++ "_" ++ noun ++ (if index > 0 then "_" ++ toString (index + 1) else "")

/-! ## The worker's analyze loop (pyodideWorker.ts, `self.onmessage`)

The worker receives `{id, name}` pairs plus the exam code, classifies each
name, and builds the response entries; the index passed to
`generate_new_filename` is the loop counter `i`, i.e. the batch position.
(The interpolation of `file.name` into the embedded Python source is modelled
as a direct call.)  `file.name.split('.').pop()` is the last
`.`-separated segment, computed by `splitDot` below (JavaScript's
`"".split('.')` is `[""]`, so `pop()` of a dot-free name is the whole
name and of a name ending in `.` is the empty string). -/

/-- JavaScript `String.prototype.split('.')` over the character list. -/
def splitDot : List Char → List (List Char)
  | [] => [[]]
  | c :: cs =>
      match splitDot cs with
      | [] => [[]]
      | g :: gs => if c = '.' then [] :: g :: gs else (c :: g) :: gs

structure WFile where
  id : String
  name : String
deriving Repr, DecidableEq

structure WResult where
  id : String
  originalName : String
  detectedType : String
  newName : String
deriving Repr, DecidableEq

/-- One iteration of the worker's analyze loop at batch position `i`. -/
def analyzeOne (examCode : String) (i : Nat) (file : WFile) : WResult :=
  let detectedType := analyze_document_type file.name
  let newName := generate_new_filename detectedType examCode i
  { id := file.id,
    originalName := file.name,
    detectedType := detectedType,
    newName := newName ++ "." ++ String.mk ((splitDot file.name.toList).getLastD []) }

/-- The worker's whole analyze loop: `for (let i = 0; i < files.length; i++)`. -/
def analyzeWorker (files : List WFile) (examCode : String) : List WResult :=
  files.enum.map (fun p => analyzeOne examCode p.1 p.2)

/-! ## Classification channel façade (documentAnalyzer.ts)

`DocumentAnalyzerService.analyzeDocuments` is split into its synchronous
start (what runs before the promise executor returns: lazy worker creation,
timer arming, handler assignment, `postMessage`) and the settlement of the
returned promise by the first event that fires (a worker message, a worker
error, or the 30-second timer). -/

/-- The `ProcessedFile` fields the analyzer reads or writes. -/
structure FileRecord where
  id : String
  originalName : String
  detectedType : Option String
  newName : Option String
  status : String
  progress : Nat
  error : Option String
deriving Repr, DecidableEq

/-- One entry of the worker's `result` payload, as consumed by the service
(`r.id`, `r.detectedType`, `r.newName`). -/
structure AnalyzeEntry where
  id : String
  detectedType : String
  newName : String
deriving Repr, DecidableEq

/-- The `files.map(... data.find(r => r.id === file.id) ...)` merge of the
`result` branch of `worker.onmessage`. -/
def mergeResults (files : List FileRecord) (data : List AnalyzeEntry) : List FileRecord :=
  files.map fun file =>
    match data.find? (fun r => r.id == file.id) with
    | some result =>
        { file with
          detectedType := some result.detectedType,
          newName := some result.newName,
          status := "completed" }
    | none => file

/-- The timer duration armed by `setTimeout(..., 30000)`: a literal constant,
independent of the batch. -/
def analysisTimeoutMs : Nat := 30000

/-- Observable state of one `DocumentAnalyzerService` instance: whether
`this.worker` is non-null, which call's closures currently occupy
`worker.onmessage`/`worker.onerror`, and the calls whose returned promises
are still unsettled. -/
structure ChannelState where
  workerInitialized : Bool
  handlerOwner : Option Nat
  outstanding : List Nat
deriving Repr, DecidableEq

/-- Synchronous outcome of calling `analyzeDocuments`. -/
inductive CallStart where
  /-- The promise was returned pending: timer armed, handlers assigned,
  request posted. -/
  | pending
  /-- The promise was rejected immediately with a channel-busy condition
  (what the spec requires of a second concurrent call; the source has no
  such branch). -/
  | rejectedBusy
deriving Repr, DecidableEq

/-- Synchronous start of `analyzeDocuments` (lines 15–66): lazily create the
worker, then unconditionally overwrite `worker.onmessage`/`worker.onerror`
with the new call's closures and post the request.  There is no check of
`outstanding`, so the result is `pending` in every state. -/
def analyzeDocumentsStart (st : ChannelState) (callId : Nat) : ChannelState × CallStart :=
  ({ workerInitialized := true,
     handlerOwner := some callId,
     outstanding := callId :: st.outstanding }, .pending)

/-- A message posted by the worker (`{type:'result', data}` or
`{type:'error', error}`). -/
inductive WorkerMsg where
  | result (data : List AnalyzeEntry)
  | errorMsg (e : String)
deriving Repr, DecidableEq

/-- The first event that settles one call's promise. -/
inductive SettleEvent where
  /-- `worker.onmessage` fired with this payload before the timer. -/
  | message (m : WorkerMsg)
  /-- `worker.onerror` fired (transport-level failure). -/
  | workerError (e : String)
  /-- the 30-second timer fired first. -/
  | timeoutFire
deriving Repr, DecidableEq

/-- How one call's promise settles. -/
inductive AnalyzeOutcome where
  | resolved (files : List FileRecord)
  | rejected (err : String)
deriving Repr, DecidableEq

/-- Settlement of the promise returned by `analyzeDocuments`, as a function
of the input records and the first settling event. -/
def analyzeDocumentsSettle (files : List FileRecord) (ev : SettleEvent) : AnalyzeOutcome :=
  match ev with
  | .timeoutFire => .rejected "Document analysis timeout"
  | .workerError e => .rejected e
  | .message (.errorMsg e) => .rejected e
  | .message (.result data) => .resolved (mergeResults files data)

/-! ## Formatting orchestrator (RustFormatterService)

The conversion engine (`this.formatter.format_document`, which may throw) is
an explicit argument `convert : List Nat → String → String → Except String
(List Nat)`; the bytes of `file.file` are carried in the record.  The
progress callback is modelled by returning, alongside the results, the list
of values passed to `onProgress` in call order. -/

/-- Output spec per document category (`examConfig.formats`). -/
structure ExamFormats where
  photo : String
  signature : String
  documents : String
deriving Repr, DecidableEq

/-- The exam configuration fields the formatter reads. -/
structure ExamConfig where
  examCode : String
  formats : ExamFormats
deriving Repr, DecidableEq

/-- Embeds `RustFormatterService.getOutputMimeType`. -/
def getOutputMimeType (documentType : String) (examConfig : ExamConfig) : String :=
  let format :=
    if documentType == "photo" then examConfig.formats.photo
    else if documentType == "signature" then examConfig.formats.signature
    else examConfig.formats.documents
  match format with
  | "JPEG" => "image/jpeg"
  | "PNG" => "image/png"
  | "PDF" => "application/pdf"
  | _ => "image/jpeg"

/-- The `ProcessedFile` fields the formatter reads or writes; `bytes` is the
content of the underlying `file` handle, `formattedFile` the produced blob as
(bytes, mime type). -/
structure FFile where
  id : String
  originalName : String
  detectedType : String
  bytes : List Nat
  status : String
  progress : Nat
  error : Option String
  formattedFile : Option (List Nat × String)
deriving Repr, DecidableEq

/-- The body of one loop iteration of `formatDocuments` after the progress
emission: convert, then push either the completed or the error record. -/
def formatStep (convert : List Nat → String → String → Except String (List Nat))
    (config : ExamConfig) (file : FFile) : FFile :=
  match convert file.bytes file.detectedType file.originalName with
  | .ok formatted =>
      { file with
        status := "completed",
        progress := 100,
        formattedFile := some (formatted, getOutputMimeType file.detectedType config) }
  | .error msg =>
      { file with status := "error", error := some msg }

/-- The `for (let i = 0; ...)` loop of `formatDocuments`: at position `i` it
first emits `(i / total) * 100` to `onProgress`, then processes record `i`.
Returns (records pushed, progress values emitted), each in order. -/
def formatLoop (convert : List Nat → String → String → Except String (List Nat))
    (config : ExamConfig) (total : Nat) :
    List FFile → Nat → List FFile × List ℚ
  | [], _ => ([], [])
  | f :: fs, i =>
      let rest := formatLoop convert config total fs (i + 1)
      (formatStep convert config f :: rest.1, ((i : ℚ) / (total : ℚ)) * 100 :: rest.2)

/-- Embeds `RustFormatterService.formatDocuments` (with `onProgress` supplied):
returns the pushed records and the full trace of `onProgress` arguments,
including the unconditional terminal `onProgress(100)`. -/
def formatDocuments (convert : List Nat → String → String → Except String (List Nat))
    (files : List FFile) (config : ExamConfig) : List FFile × List ℚ :=
  let r := formatLoop convert config files.length files 0
  (r.1, r.2 ++ [100])

/-! ## Helper lemmas -/

/-- The nested scan loop equals a `find?` over the rule table. -/
theorem analyzeScan_eq_find? (fl : List Char) (l : List (String × List RE)) :
    analyzeScan fl l =
      (l.find? (fun rule => rule.2.any (fun p => research p fl))).map Prod.fst := by
  induction l with
  | nil => rfl
  | cons a rest ih =>
    obtain ⟨t, ps⟩ := a
    by_cases h : ps.any (fun p => research p fl) = true
    · simp [analyzeScan, List.find?, h]
    · simp only [Bool.not_eq_true] at h
      simp [analyzeScan, List.find?, h, ih]

/-- The spec-side table scan agrees with the source's nested loop. -/
theorem specScan_eq (fl : List Char) : specScan fl = analyzeScan fl document_patterns := by
  rw [specScan, analyzeScan_eq_find?]

/-- Searching for a literal pattern is the substring test. -/
theorem research_lit (w : String) (cs : List Char) :
    research (RE.lit w) cs = isSub w.toList cs := by
  induction cs with
  | nil =>
    simp only [research, matchPre, isSub]
    cases hw : w.toList.isPrefixOf ([] : List Char) <;> simp [hw]
  | cons c cs ih =>
    simp only [research, matchPre, isSub]
    cases hw : w.toList.isPrefixOf (c :: cs) <;> simp [hw, ih]

/-- The source's dict-backed filename generator agrees with the spec's
stem-plus-suffix rendering for every type string, exam code and index. -/
theorem generate_eq_renderNameSpec (t e : String) (i : Nat) :
    generate_new_filename t e i = renderNameSpec t e i := by
  rcases eq_or_ne t "photo" with rfl | h1
  · by_cases hi : i > 0 <;>
      simp [generate_new_filename, renderNameSpec, type_mapping, hi, List.find?, String.ext_iff]
  rcases eq_or_ne t "signature" with rfl | h2
  · by_cases hi : i > 0 <;>
      simp [generate_new_filename, renderNameSpec, type_mapping, hi, List.find?, String.ext_iff]
  rcases eq_or_ne t "aadhaar" with rfl | h3
  · by_cases hi : i > 0 <;>
      simp [generate_new_filename, renderNameSpec, type_mapping, hi, List.find?, String.ext_iff]
  rcases eq_or_ne t "marksheet" with rfl | h4
  · by_cases hi : i > 0 <;>
      simp [generate_new_filename, renderNameSpec, type_mapping, hi, List.find?, String.ext_iff]
  rcases eq_or_ne t "certificate" with rfl | h5
  · by_cases hi : i > 0 <;>
      simp [generate_new_filename, renderNameSpec, type_mapping, hi, List.find?, String.ext_iff]
  rcases eq_or_ne t "caste_certificate" with rfl | h6
  · by_cases hi : i > 0 <;>
      simp [generate_new_filename, renderNameSpec, type_mapping, hi, List.find?, String.ext_iff]
  rcases eq_or_ne t "income_certificate" with rfl | h7
  · by_cases hi : i > 0 <;>
      simp [generate_new_filename, renderNameSpec, type_mapping, hi, List.find?, String.ext_iff]
  rcases eq_or_ne t "document" with rfl | h8
  · by_cases hi : i > 0 <;>
      simp [generate_new_filename, renderNameSpec, type_mapping, hi, List.find?, String.ext_iff]
  have g1 : ("photo" == t) = false := beq_eq_false_iff_ne.mpr (Ne.symm h1)
  have g2 : ("signature" == t) = false := beq_eq_false_iff_ne.mpr (Ne.symm h2)
  have g3 : ("aadhaar" == t) = false := beq_eq_false_iff_ne.mpr (Ne.symm h3)
  have g4 : ("marksheet" == t) = false := beq_eq_false_iff_ne.mpr (Ne.symm h4)
  have g5 : ("certificate" == t) = false := beq_eq_false_iff_ne.mpr (Ne.symm h5)
  have g6 : ("caste_certificate" == t) = false := beq_eq_false_iff_ne.mpr (Ne.symm h6)
  have g7 : ("income_certificate" == t) = false := beq_eq_false_iff_ne.mpr (Ne.symm h7)
  have g8 : ("document" == t) = false := beq_eq_false_iff_ne.mpr (Ne.symm h8)
  by_cases hi : i > 0 <;>
    simp [generate_new_filename, renderNameSpec, type_mapping, hi, List.find?,
      g1, g2, g3, g4, g5, g6, g7, g8, h1, h2, h3, h4, h5, h6, h7, h8, String.ext_iff]

/-- The records pushed by the formatting loop are the per-record
`formatStep`, in input order. -/
theorem formatLoop_fst (c : List Nat → String → String → Except String (List Nat))
    (cfg : ExamConfig) (T : Nat) (fs : List FFile) (k : Nat) :
    (formatLoop c cfg T fs k).1 = fs.map (formatStep c cfg) := by
  induction fs generalizing k with
  | nil => rfl
  | cons f fs ih => simp [formatLoop, ih]

/-- Characterisation of the loop's progress emissions: the `j`-th value,
starting from counter `k`, is `(k + j) / T * 100`. -/
theorem formatLoop_snd_get? (c : List Nat → String → String → Except String (List Nat))
    (cfg : ExamConfig) (T : Nat) (fs : List FFile) (k j : Nat) :
    ((formatLoop c cfg T fs k).2)[j]? =
      if j < fs.length then some (((k + j : Nat) : ℚ) / (T : ℚ) * 100) else none := by
  induction fs generalizing k j with
  | nil => simp [formatLoop]
  | cons f fs ih =>
    cases j with
    | zero => simp [formatLoop]
    | succ j =>
      have harith : k + 1 + j = k + (j + 1) := by omega
      simp [formatLoop, ih (k + 1) j, Nat.succ_lt_succ_iff, harith]

/-- The loop emits one progress value per record. -/
theorem formatLoop_snd_length (c : List Nat → String → String → Except String (List Nat))
    (cfg : ExamConfig) (T : Nat) (fs : List FFile) (k : Nat) :
    (formatLoop c cfg T fs k).2.length = fs.length := by
  induction fs generalizing k with
  | nil => rfl
  | cons f fs ih => simp [formatLoop, ih]

/-- Every in-loop progress value is strictly below 100. -/
theorem formatLoop_snd_lt (c : List Nat → String → String → Except String (List Nat))
    (cfg : ExamConfig) (T : Nat) (fs : List FFile) (k : Nat)
    (hT : 0 < T) (hb : k + fs.length ≤ T) :
    ∀ q ∈ (formatLoop c cfg T fs k).2, q < 100 := by
  induction fs generalizing k with
  | nil => simp [formatLoop]
  | cons f fs ih =>
    intro q hq
    simp only [formatLoop, List.mem_cons] at hq
    rcases hq with rfl | hq
    · have hkT : (k : ℚ) < (T : ℚ) := by
        have : k < T := by simp at hb; omega
        exact_mod_cast this
      have hTpos : (0 : ℚ) < (T : ℚ) := by exact_mod_cast hT
      calc (k : ℚ) / (T : ℚ) * 100 < 1 * 100 := by
            apply mul_lt_mul_of_pos_right _ (by norm_num)
            rw [div_lt_one hTpos]
            exact hkT
        _ = 100 := by norm_num
    · exact ih (k + 1) (by simp at hb ⊢; omega) q hq

/-! ## Claim theorems -/

/-- C1: for every filename string (including the empty one),
`analyze_document_type` lower-cases the filename, scans the rule table in
declaration order testing each rule's patterns in list order and returns the
first matching rule's type, falls back to the ordered keyword heuristic, and
defaults to `"document"` — stated as agreement with the spec-side
`classifySpec` built from exactly that description, plus the empty-string
default.  Totality holds by construction: both sides are total functions. -/
theorem classify_table_order_fallback_default :
    (∀ s : String, analyze_document_type s = classifySpec s) ∧
    analyze_document_type "" = "document" := by
  constructor
  · intro s
    simp only [analyze_document_type, classifySpec, specScan_eq]
    cases h : analyzeScan (lowerChars s) document_patterns with
    | some t => rfl
    | none =>
      simp only [firstKeywordHit, fallbackTable]
      split_ifs <;> simp
  · decide

/-- C10 (amended): for every filename whose lower-casing contains the
substring `"certificate"`, `analyze_document_type` never returns
`"caste_certificate"` or `"income_certificate"`, and always returns the type
of one of the first five rules — but not necessarily `"certificate"` itself,
since an earlier rule (aadhaar, photo, signature, marksheet) may match
first. -/
theorem classify_contains_certificate_not_caste_income (s : String)
    (h : isSub "certificate".toList (lowerChars s) = true) :
    analyze_document_type s ≠ "caste_certificate" ∧
    analyze_document_type s ≠ "income_certificate" ∧
    analyze_document_type s ∈ ["aadhaar", "photo", "signature", "marksheet", "certificate"] := by
  have hc : research (RE.lit "certificate") (lowerChars s) = true := by
    rw [research_lit]; exact h
  have h5 : ([RE.lit "certificate", RE.lit "diploma", RE.lit "degree", RE.lit "graduation",
      reBridge "post" "graduation"].any (fun p => research p (lowerChars s))) = true := by
    simp only [List.any_cons, List.any_nil, Bool.or_eq_true]
    exact Or.inl hc
  simp only [analyze_document_type, document_patterns, analyzeScan]
  split_ifs <;> simp_all

/-- C10 counterexample: `"photo_certificate"` contains `"certificate"` but
classifies as `"photo"` (the photo rule precedes the certificate rule), so
the claim's "classify returns 'certificate'" fails as stated. -/
theorem classify_contains_certificate_cex :
    isSub "certificate".toList (lowerChars "photo_certificate") = true ∧
    analyze_document_type "photo_certificate" = "photo" ∧
    "photo" ≠ "certificate" := ⟨by decide, by decide, by decide⟩

/-- C10 witness: a concrete filename containing `"certificate"` on which the
amended theorem applies. -/
theorem classify_contains_certificate_not_caste_income_witness :
    isSub "certificate".toList (lowerChars "salary certificate") = true ∧
    analyze_document_type "salary certificate" ≠ "caste_certificate" ∧
    analyze_document_type "salary certificate" ≠ "income_certificate" :=
  ⟨by decide,
    (classify_contains_certificate_not_caste_income "salary certificate" (by decide)).1,
    (classify_contains_certificate_not_caste_income "salary certificate" (by decide)).2.1⟩

/-- C6: `generate_new_filename` maps each known document type to the fixed
stem `"{examCode}_{typeNoun}"` and any unknown type to
`"{examCode}_document"`, appending `"_{index+1}"` exactly when `index > 0`
(stated as agreement with the spec-side `renderNameSpec`, plus the three
concrete examples), and the worker's analyze loop passes the file's batch
position as that index: the `i`-th response entry is `analyzeOne` of the
`i`-th input file at index `i`. -/
theorem renderName_stem_and_batch_index :
    (∀ (t e : String) (i : Nat), generate_new_filename t e i = renderNameSpec t e i) ∧
    generate_new_filename "photo" "EX01" 0 = "EX01_photograph" ∧
    generate_new_filename "photo" "EX01" 1 = "EX01_photograph_2" ∧
    generate_new_filename "unknown_type" "EX01" 0 = "EX01_document" ∧
    (∀ (files : List WFile) (examCode : String) (i : Nat) (f : WFile),
      files[i]? = some f →
      (analyzeWorker files examCode)[i]? = some (analyzeOne examCode i f)) := by
  refine ⟨generate_eq_renderNameSpec, by decide, by decide, by decide, ?_⟩
  intro files examCode i f hf
  simp [analyzeWorker, List.getElem?_map, List.getElem?_enum, hf]

/-- C6 witness: the batch-position law applied to a concrete one-file
batch. -/
theorem renderName_stem_and_batch_index_witness :
    ([⟨"1", "a.jpg"⟩] : List WFile)[0]? = some ⟨"1", "a.jpg"⟩ ∧
    (analyzeWorker [⟨"1", "a.jpg"⟩] "EX01")[0]? = some (analyzeOne "EX01" 0 ⟨"1", "a.jpg"⟩) :=
  ⟨rfl, renderName_stem_and_batch_index.2.2.2.2 [⟨"1", "a.jpg"⟩] "EX01" 0 ⟨"1", "a.jpg"⟩ rfl⟩

/-- C3 (failing-input evaluation): a second `analyzeDocuments` call while one
batch is outstanding is not rejected with a channel-busy condition — the
synchronous start unconditionally returns a pending promise and silently
overwrites the worker's `onmessage`/`onerror` handlers with the new call's
closures (the first call's handler is lost), contradicting the spec's
fail-fast requirement. -/
theorem analyzeDocuments_no_busy_rejection :
    (analyzeDocumentsStart ⟨true, some 0, [0]⟩ 1).2 = CallStart.pending ∧
    (analyzeDocumentsStart ⟨true, some 0, [0]⟩ 1).2 ≠ CallStart.rejectedBusy ∧
    (analyzeDocumentsStart ⟨true, some 0, [0]⟩ 1).1.handlerOwner = some 1 ∧
    (analyzeDocumentsStart ⟨true, some 0, [0]⟩ 1).1.outstanding = [1, 0] := by
  refine ⟨rfl, by decide, rfl, rfl⟩

/-- C5: the analysis timer is the fixed constant 30000 ms independent of the
batch; when it fires first the promise is rejected with the timeout message,
and a transport-level worker error likewise rejects the promise — and a
resolved outcome can only arise from a worker `result` message, so no input
record receives classification results on either failure (there is no
partial-result delivery). -/
theorem analyze_timeout_or_transport_rejects_whole :
    analysisTimeoutMs = 30000 ∧
    (∀ files : List FileRecord,
      analyzeDocumentsSettle files SettleEvent.timeoutFire =
        AnalyzeOutcome.rejected "Document analysis timeout") ∧
    (∀ (files : List FileRecord) (e : String),
      analyzeDocumentsSettle files (SettleEvent.workerError e) = AnalyzeOutcome.rejected e) ∧
    (∀ (files out : List FileRecord) (ev : SettleEvent),
      analyzeDocumentsSettle files ev = AnalyzeOutcome.resolved out →
      ∃ data, ev = SettleEvent.message (WorkerMsg.result data) ∧ out = mergeResults files data) := by
  refine ⟨rfl, fun _ => rfl, fun _ _ => rfl, ?_⟩
  intro files out ev hres
  cases ev with
  | timeoutFire => exact absurd hres (by simp [analyzeDocumentsSettle])
  | workerError e => exact absurd hres (by simp [analyzeDocumentsSettle])
  | message m =>
    cases m with
    | errorMsg e => exact absurd hres (by simp [analyzeDocumentsSettle])
    | result data =>
      refine ⟨data, rfl, ?_⟩
      simpa [analyzeDocumentsSettle] using hres.symm

/-- C5 witness: the resolved-only-from-result conjunct applied to a concrete
settling event. -/
theorem analyze_timeout_or_transport_rejects_whole_witness :
    analyzeDocumentsSettle [] (SettleEvent.message (WorkerMsg.result [])) =
      AnalyzeOutcome.resolved (mergeResults [] []) ∧
    ∃ data, SettleEvent.message (WorkerMsg.result ([] : List AnalyzeEntry)) =
        SettleEvent.message (WorkerMsg.result data) ∧
      mergeResults [] [] = mergeResults [] data :=
  ⟨rfl, analyze_timeout_or_transport_rejects_whole.2.2.2 [] (mergeResults [] [])
    (SettleEvent.message (WorkerMsg.result [])) rfl⟩

/-- C7: when the classification response arrives, any input record whose id
matches no response entry is passed through completely unmodified by the
merge — it is neither updated nor marked as an error. -/
theorem analyze_missing_id_left_unmodified (files : List FileRecord)
    (data : List AnalyzeEntry) (i : Nat) (f : FileRecord)
    (hf : files[i]? = some f)
    (habs : ∀ r ∈ data, (r.id == f.id) = false) :
    analyzeDocumentsSettle files (SettleEvent.message (WorkerMsg.result data)) =
      AnalyzeOutcome.resolved (mergeResults files data) ∧
    (mergeResults files data)[i]? = some f := by
  refine ⟨rfl, ?_⟩
  rw [mergeResults, List.getElem?_map, hf]
  have hnone : data.find? (fun r => r.id == f.id) = none := by
    rw [List.find?_eq_none]
    intro x hx
    simp [habs x hx]
  simp [hnone]

/-- C7 witness: a record whose id (`"a"`) is absent from a concrete response
is returned unchanged. -/
theorem analyze_missing_id_left_unmodified_witness :
    (mergeResults [⟨"a", "x.jpg", none, none, "pending", 0, none⟩]
        [⟨"b", "photo", "E_photograph.jpg"⟩])[0]? =
      some ⟨"a", "x.jpg", none, none, "pending", 0, none⟩ :=
  (analyze_missing_id_left_unmodified
    [⟨"a", "x.jpg", none, none, "pending", 0, none⟩]
    [⟨"b", "photo", "E_photograph.jpg"⟩] 0
    ⟨"a", "x.jpg", none, none, "pending", 0, none⟩ rfl
    (by intro r hr; simp at hr; subst hr; decide)).2

/-- C9: when the classification response arrives in time the promise
resolves with the merged array, which has exactly the length (and positional
order) of the input; every record whose id matches a response entry (the
first such entry, per `find?`) gets `detectedType`, `newName` and
`status := "completed"` set with every other field unchanged, as the record
update shows. -/
theorem analyze_resolves_same_length_and_updates (files : List FileRecord)
    (data : List AnalyzeEntry) :
    analyzeDocumentsSettle files (SettleEvent.message (WorkerMsg.result data)) =
      AnalyzeOutcome.resolved (mergeResults files data) ∧
    (mergeResults files data).length = files.length ∧
    (∀ (i : Nat) (f : FileRecord) (r : AnalyzeEntry),
      files[i]? = some f →
      data.find? (fun rr => rr.id == f.id) = some r →
      (mergeResults files data)[i]? = some
        { f with detectedType := some r.detectedType,
                 newName := some r.newName, status := "completed" }) := by
  refine ⟨rfl, by simp [mergeResults], ?_⟩
  intro i f r hf hfind
  rw [mergeResults, List.getElem?_map, hf]
  simp [hfind]

/-- C9 witness: a concrete one-record batch whose id is matched by the
response entry. -/
theorem analyze_resolves_same_length_and_updates_witness :
    (mergeResults [⟨"a", "x.jpg", none, none, "pending", 0, none⟩]
        [⟨"a", "photo", "E_photograph.jpg"⟩])[0]? =
      some ⟨"a", "x.jpg", some "photo", some "E_photograph.jpg", "completed", 0, none⟩ :=
  (analyze_resolves_same_length_and_updates
    [⟨"a", "x.jpg", none, none, "pending", 0, none⟩]
    [⟨"a", "photo", "E_photograph.jpg"⟩]).2.2 0
    ⟨"a", "x.jpg", none, none, "pending", 0, none⟩
    ⟨"a", "photo", "E_photograph.jpg"⟩ rfl (by decide)

/-- C2: for every batch in which the conversion engine fails (with a
non-empty message) on exactly the record at position `j` and succeeds with
non-empty output on every other record, `formatDocuments` returns — it never
rejects, being a total function of the explicit `convert` — an array of the
input's length in input order in which every record other than `j` is
completed with `progress = 100` and a non-empty payload carrying the mime
type configured for its category, and record `j` alone is an error with a
non-empty message; the single failure never aborts the rest of the batch. -/
theorem format_isolates_single_failure
    (c : List Nat → String → String → Except String (List Nat)) (cfg : ExamConfig)
    (files : List FFile) (j : Nat)
    (hfail : ∀ f, files[j]? = some f →
      ∃ m, c f.bytes f.detectedType f.originalName = Except.error m ∧ m ≠ "")
    (hok : ∀ (i : Nat) (f : FFile), i ≠ j → files[i]? = some f →
      ∃ out, c f.bytes f.detectedType f.originalName = Except.ok out ∧ out ≠ []) :
    (formatDocuments c files cfg).1.length = files.length ∧
    (∀ (i : Nat) (f : FFile), i ≠ j → files[i]? = some f →
      ∃ out, out ≠ [] ∧
        (formatDocuments c files cfg).1[i]? = some
          { f with
            status := "completed", progress := 100,
            formattedFile := some (out, getOutputMimeType f.detectedType cfg) }) ∧
    (∀ f, files[j]? = some f → ∃ m, m ≠ "" ∧
      (formatDocuments c files cfg).1[j]? = some { f with status := "error", error := some m }) := by
  have hres : (formatDocuments c files cfg).1 = files.map (formatStep c cfg) := by
    simp only [formatDocuments]
    exact formatLoop_fst c cfg files.length files 0
  refine ⟨by rw [hres]; simp, ?_, ?_⟩
  · intro i f hij hf
    obtain ⟨out, hout, hne⟩ := hok i f hij hf
    refine ⟨out, hne, ?_⟩
    rw [hres, List.getElem?_map, hf]
    simp [formatStep, hout]
  · intro f hf
    obtain ⟨m, hm, hne⟩ := hfail f hf
    refine ⟨m, hne, ?_⟩
    rw [hres, List.getElem?_map, hf]
    simp [formatStep, hm]

/-- C2 witness: a concrete two-file batch whose second file fails
conversion; the first comes back completed with the JPEG mime configured for
photos, the second errored. -/
theorem format_isolates_single_failure_witness :
    (formatDocuments
        (fun b _ _ => if b = [9] then Except.error "conversion failed" else Except.ok [7])
        [⟨"1", "a.jpg", "photo", [0], "pending", 0, none, none⟩,
         ⟨"2", "b.jpg", "signature", [9], "pending", 0, none, none⟩]
        ⟨"EX", ⟨"JPEG", "PNG", "PDF"⟩⟩).1.length = 2 ∧
    (∃ out, out ≠ [] ∧
      (formatDocuments
        (fun b _ _ => if b = [9] then Except.error "conversion failed" else Except.ok [7])
        [⟨"1", "a.jpg", "photo", [0], "pending", 0, none, none⟩,
         ⟨"2", "b.jpg", "signature", [9], "pending", 0, none, none⟩]
        ⟨"EX", ⟨"JPEG", "PNG", "PDF"⟩⟩).1[0]? = some
          ⟨"1", "a.jpg", "photo", [0], "completed", 100, none, some (out, "image/jpeg")⟩) ∧
    (∃ m, m ≠ "" ∧
      (formatDocuments
        (fun b _ _ => if b = [9] then Except.error "conversion failed" else Except.ok [7])
        [⟨"1", "a.jpg", "photo", [0], "pending", 0, none, none⟩,
         ⟨"2", "b.jpg", "signature", [9], "pending", 0, none, none⟩]
        ⟨"EX", ⟨"JPEG", "PNG", "PDF"⟩⟩).1[1]? = some
          ⟨"2", "b.jpg", "signature", [9], "error", 0, some m, none⟩) := by
  have h := format_isolates_single_failure
    (fun b _ _ => if b = [9] then Except.error "conversion failed" else Except.ok [7])
    ⟨"EX", ⟨"JPEG", "PNG", "PDF"⟩⟩
    [⟨"1", "a.jpg", "photo", [0], "pending", 0, none, none⟩,
     ⟨"2", "b.jpg", "signature", [9], "pending", 0, none, none⟩] 1
    (by
      intro f hf
      simp only [List.getElem?_cons_succ, List.getElem?_cons_zero, Option.some.injEq] at hf
      subst hf
      exact ⟨"conversion failed", rfl, by decide⟩)
    (by
      intro i f hij hf
      match i, hij with
      | 0, _ =>
        simp only [List.getElem?_cons_zero, Option.some.injEq] at hf
        subst hf
        exact ⟨[7], rfl, by decide⟩
      | 1, hij => exact absurd rfl hij
      | (n + 2), _ => simp at hf)
  exact ⟨h.1, h.2.1 0 _ (by decide) rfl, h.2.2 _ rfl⟩

/-- C4 (amended): before processing record `i` of a batch of `total` files,
`formatDocuments` invokes the progress callback with the exact value
`(i / total) * 100` — not its floor, so the delivered value is in general not
an integer — and the first callback reports 0. -/
theorem format_progress_exact_values
    (c : List Nat → String → String → Except String (List Nat)) (cfg : ExamConfig)
    (files : List FFile) (i : Nat) (hi : i < files.length) :
    ((formatDocuments c files cfg).2)[i]? = some ((i : ℚ) / (files.length : ℚ) * 100) ∧
    ((formatDocuments c files cfg).2)[0]? = some 0 := by
  have key : ∀ k : Nat, k < files.length →
      ((formatDocuments c files cfg).2)[k]? = some ((k : ℚ) / (files.length : ℚ) * 100) := by
    intro k hk
    simp only [formatDocuments]
    rw [List.getElem?_append_left (by rw [formatLoop_snd_length]; exact hk)]
    rw [formatLoop_snd_get?]
    simp [hk]
  refine ⟨key i hi, ?_⟩
  have h0 := key 0 (Nat.lt_of_le_of_lt (Nat.zero_le i) hi)
  simpa using h0

/-- C4 counterexample: on a three-file batch the second callback value is
`100/3`, which is not the integer 33 even though `33 ≤ 100/3 < 34` (so 33 is
`floor(1/3 * 100)`); the code does not floor, refuting the claim as
stated. -/
theorem format_progress_not_floored_cex :
    ((formatDocuments (fun _ _ _ => Except.ok [0])
        [⟨"1", "a.jpg", "photo", [0], "pending", 0, none, none⟩,
         ⟨"2", "b.jpg", "photo", [0], "pending", 0, none, none⟩,
         ⟨"3", "c.jpg", "photo", [0], "pending", 0, none, none⟩]
        ⟨"EX", ⟨"JPEG", "PNG", "PDF"⟩⟩).2)[1]? = some ((100 : ℚ) / 3) ∧
    ((100 : ℚ) / 3) ≠ 33 ∧
    (33 : ℚ) ≤ (100 : ℚ) / 3 ∧ (100 : ℚ) / 3 < 34 := by
  refine ⟨?_, by norm_num, by norm_num, by norm_num⟩
  simp [formatDocuments, formatLoop]
  norm_num

/-- C4 witness: the amended value law evaluated at position 1 of a concrete
three-file batch. -/
theorem format_progress_exact_values_witness :
    ((formatDocuments (fun _ _ _ => Except.ok [0])
        [⟨"1", "a.jpg", "photo", [0], "pending", 0, none, none⟩,
         ⟨"2", "b.jpg", "photo", [0], "pending", 0, none, none⟩,
         ⟨"3", "c.jpg", "photo", [0], "pending", 0, none, none⟩]
        ⟨"EX", ⟨"JPEG", "PNG", "PDF"⟩⟩).2)[1]? = some ((1 : ℚ) / 3 * 100) := by
  have h := (format_progress_exact_values (fun _ _ _ => Except.ok [0])
    ⟨"EX", ⟨"JPEG", "PNG", "PDF"⟩⟩
    [⟨"1", "a.jpg", "photo", [0], "pending", 0, none, none⟩,
     ⟨"2", "b.jpg", "photo", [0], "pending", 0, none, none⟩,
     ⟨"3", "c.jpg", "photo", [0], "pending", 0, none, none⟩] 1 (by norm_num)).1
  simpa using h

/-- C8: for every non-empty batch the progress trace of `formatDocuments`
ends with the unconditional terminal `onProgress(100)` and contains the
value 100 exactly once (every in-loop value `i/total*100` with `i < total`
is strictly below 100), regardless of the conversion outcome of any
individual file — `convert` is universally quantified. -/
theorem format_onProgress_terminal_100_once
    (c : List Nat → String → String → Except String (List Nat)) (cfg : ExamConfig)
    (files : List FFile) (h : files ≠ []) :
    ((formatDocuments c files cfg).2).getLast? = some 100 ∧
    List.count 100 ((formatDocuments c files cfg).2) = 1 := by
  constructor
  · simp only [formatDocuments]
    exact List.getLast?_concat _
  · simp only [formatDocuments]
    rw [List.count_append]
    have h0 : List.count 100 (formatLoop c cfg files.length files 0).2 = 0 := by
      rw [List.count_eq_zero]
      intro hmem
      have hlt := formatLoop_snd_lt c cfg files.length files 0
        (List.length_pos.mpr h) (by omega) 100 hmem
      exact absurd hlt (by norm_num)
    rw [h0]
    simp [List.count_singleton]

/-- C8 witness: the terminal-100 law on a concrete one-file batch. -/
theorem format_onProgress_terminal_100_once_witness :
    ((formatDocuments (fun _ _ _ => Except.ok [0])
        [⟨"1", "a.jpg", "photo", [0], "pending", 0, none, none⟩]
        ⟨"EX", ⟨"JPEG", "PNG", "PDF"⟩⟩).2).getLast? = some 100 ∧
    List.count 100 ((formatDocuments (fun _ _ _ => Except.ok [0])
        [⟨"1", "a.jpg", "photo", [0], "pending", 0, none, none⟩]
        ⟨"EX", ⟨"JPEG", "PNG", "PDF"⟩⟩).2) = 1 :=
  format_onProgress_terminal_100_once (fun _ _ _ => Except.ok [0])
    ⟨"EX", ⟨"JPEG", "PNG", "PDF"⟩⟩
    [⟨"1", "a.jpg", "photo", [0], "pending", 0, none, none⟩] (by decide)
